import Mathlib

set_option linter.unusedVariables false

/-!
Shallow embedding of the JSON loader in src/src/load.c: the byte stream
layer, the lexer, the recursive descent parser and the error reporter,
over a generic pull source.  Characters are modelled as C signed char
and int values (end of input is -1); raw source bytes are naturals in
0..255.  Loops carry an explicit fuel argument and return none when it
runs out, so that sources of unbounded length are representable; the C
single level pushback buffer is modelled as a pushback stack of pending
characters.  The allocation of value tree nodes is instrumented with a
live node counter so that release on error paths can be stated, and the
key copy in parse_object can be made to fail for fault injection.
-/

/-- Signed char value of a raw byte, two complement with 8 bits. -/
def sgnChar (b : Nat) : Int := if b < 128 then (b : Int) else (b : Int) - 256

/-- Wrap an int into signed char range, as storing into a char field does. -/
def toChar (n : Int) : Int := ((n + 128) % 256) - 128

/-- Unsigned char view of a signed char value. -/
def ucharOf (c : Int) : Int := (c + 256) % 256

/-- The ctype isdigit check, over char and int arguments. -/
def isdigitC (c : Int) : Bool := 48 ≤ c && c ≤ 57

/-- The ctype isxdigit check. -/
def isxdigitC (c : Int) : Bool := isdigitC c || (65 ≤ c && c ≤ 70) || (97 ≤ c && c ≤ 102)

/-- The ctype isupper check. -/
def isupperC (c : Int) : Bool := 65 ≤ c && c ≤ 90

/-- The ctype islower check. -/
def islowerC (c : Int) : Bool := 97 ≤ c && c ≤ 122

/-- Char codes of an ASCII string literal. -/
def ascii (s : String) : List Int := s.data.map (fun ch => (ch.toNat : Int))

/-- A pull source: a get callback returning the next raw byte as an int
with -1 for end of input, and an eof callback telling whether the source
is exhausted.  This mirrors the get_func and eof_func pair of load.c. -/
structure Source (σ : Type) where
  get : σ → Int × σ
  eof : σ → Bool

/-- State of the byte stream layer: the source state plus the buffered
characters that the next reads must deliver first.  The buffer holds the
remaining bytes of a validated multi byte UTF-8 sequence and any pushed
back character (stream_t buffer and buffer_pos in load.c). -/
structure StreamSt (σ : Type) where
  src : σ
  pending : List Int

/-- Read n chars from the source in a row, as the continuation byte loop
of stream_get does. -/
def readN {σ : Type} (S : Source σ) : Nat → σ → List Int × σ
  | 0, s => ([], s)
  | n + 1, s =>
    let (g, s1) := S.get s
    let (rest, s2) := readN S n s1
    (toChar g :: rest, s2)

/-- Modelled from the spec: expected length of a UTF-8 sequence from the
bit pattern of its leading byte, zero for an invalid leading byte; the
function utf8_check_first lives in utf.c which is absent from src. -/
def utf8_check_first (c : Int) : Nat :=
  let u := ucharOf c
  if u < 128 then 1
  else if u ≤ 191 then 0
  else if u ≤ 193 then 0
  else if u ≤ 223 then 2
  else if u ≤ 239 then 3
  else if u ≤ 244 then 4
  else 0

/-- Modelled from the spec: validation of a full UTF-8 sequence, rejecting
bad continuation bytes, overlong encodings, surrogate range codepoints and
codepoints beyond the Unicode range; the function utf8_check_full lives in
utf.c which is absent from src. -/
def utf8_check_full (l : List Int) : Bool :=
  match l.map ucharOf with
  | [] => false
  | u0 :: rest =>
    rest.all (fun u => decide (128 ≤ u) && decide (u ≤ 191)) &&
    (let lead : Int :=
       if rest.length = 1 then u0 - 192
       else if rest.length = 2 then u0 - 224
       else u0 - 240
     let cp := rest.foldl (fun a u => a * 64 + (u - 128)) lead
     if rest.length = 1 then decide (128 ≤ cp)
     else if rest.length = 2 then
       decide (2048 ≤ cp) && !(decide (55296 ≤ cp) && decide (cp ≤ 57343))
     else if rest.length = 3 then decide (65536 ≤ cp) && decide (cp ≤ 1114111)
     else false)

/-- The stream_get reader: serves buffered characters first; otherwise
pulls a byte from the source, returns -1 when the source reports end of
input, and validates a multi byte UTF-8 sequence when the byte has the
high bit set, yielding the invalid character 0 when validation fails. -/
def stream_get {σ : Type} (S : Source σ) (st : StreamSt σ) : Int × StreamSt σ :=
  match st.pending with
  | c :: rest => (c, { st with pending := rest })
  | [] =>
    let (g, s1) := S.get st.src
    let c := toChar g
    if c = -1 ∧ S.eof s1 then (-1, { src := s1, pending := [] })
    else if c < 0 then
      let count := utf8_check_first c
      if count = 0 then (0, { src := s1, pending := [] })
      else
        let (tail, s2) := readN S (count - 1) s1
        if utf8_check_full (c :: tail) then (c, { src := s2, pending := tail })
        else (0, { src := s2, pending := [] })
    else (c, { src := s1, pending := [] })

/-- The stream_unget operation: pushes the character back so that the
next stream_get returns it again. -/
def stream_unget {σ : Type} (st : StreamSt σ) (c : Int) : StreamSt σ :=
  { st with pending := c :: st.pending }

/-- Tokens of the lexer, with the decoded payload of scalar tokens.  The
real payload is kept exact as a mantissa and a decimal exponent standing
for the double produced by strtod, whose rounding is not modelled. -/
inductive Token where
  | invalid
  | eof
  | punct (c : Int)
  | string (s : List Int)
  | integer (n : Int)
  | real (mant : Int) (dexp : Int)
  | tru
  | fls
  | nul
deriving DecidableEq, Repr

/-- Lexer state: the stream, the raw saved text of the current token as a
list of char values, the current token and the 1 based line counter. -/
structure LexSt (σ : Type) where
  stream : StreamSt σ
  saved : List Int
  token : Token
  line : Int

/-- The lex_get helper: one character from the stream. -/
def lex_get {σ : Type} (S : Source σ) (lex : LexSt σ) : Int × LexSt σ :=
  let (c, st) := stream_get S lex.stream
  (c, { lex with stream := st })

/-- The lex_eof helper: queries the eof callback of the source. -/
def lex_eof {σ : Type} (S : Source σ) (lex : LexSt σ) : Bool :=
  S.eof lex.stream.src

/-- The lex_save helper: appends one char to the saved text. -/
def lex_save {σ : Type} (lex : LexSt σ) (c : Int) : LexSt σ :=
  { lex with saved := lex.saved ++ [c] }

/-- The lex_get_save helper: reads one character and saves it. -/
def lex_get_save {σ : Type} (S : Source σ) (lex : LexSt σ) : Int × LexSt σ :=
  let (c, st) := stream_get S lex.stream
  (c, { lex with stream := st, saved := lex.saved ++ [c] })

/-- The lex_unget_unsave helper: pushes the character back to the stream
and drops it from the saved text. -/
def lex_unget_unsave {σ : Type} (lex : LexSt σ) (c : Int) : LexSt σ :=
  { lex with stream := stream_unget lex.stream c, saved := lex.saved.dropLast }

/-- Decoding of a two character escape to its single byte, the switch in
the second pass of lex_scan_string; the default case is unreachable after
a successful raw scan (the C code asserts there). -/
def escDecode (p : Int) : Option Int :=
  if p = 34 ∨ p = 92 ∨ p = 47 then some p
  else if p = 98 then some 8
  else if p = 102 then some 12
  else if p = 110 then some 10
  else if p = 114 then some 13
  else if p = 116 then some 9
  else none

/-- The second pass of lex_scan_string: walks the raw text up to the
closing quote, converting each escape to its decoded byte and copying
other characters unchanged; a backslash u escape makes the whole token
fail (none models the freed payload and the INVALID token). -/
def decodeString : List Int → Option (List Int)
  | [] => some []
  | p :: rest =>
    if p = 34 then some []
    else if p = 92 then
      match rest with
      | [] => none
      | q :: rest2 =>
        if q = 117 then none
        else
          match escDecode q with
          | none => none
          | some b => (decodeString rest2).map (fun l => b :: l)
    else (decodeString rest).map (fun l => p :: l)

/-- The four hex digit check after a backslash u in the raw string scan:
returns the character following the digits, or none with the offending
character pushed back. -/
def hexLoop {σ : Type} (S : Source σ) : Nat → Int → LexSt σ → Option Int × LexSt σ
  | 0, c, lex => (some c, lex)
  | i + 1, c, lex =>
    if isxdigitC c then
      let (c2, lex2) := lex_get_save S lex
      hexLoop S i c2 lex2
    else (none, lex_unget_unsave lex c)

/-- The raw scan loop of lex_scan_string: consumes characters until the
unescaped closing quote; true means the quote was reached, false means
the scan aborted with the token left INVALID. -/
def scanStrLoop {σ : Type} (S : Source σ) : Nat → Int → LexSt σ → Option (Bool × LexSt σ)
  | 0, _, _ => none
  | fuel + 1, c, lex =>
    if c = 34 then some (true, lex)
    else if c = -1 ∧ lex_eof S lex then some (false, lex)
    else if 0 ≤ c ∧ c ≤ 31 then some (false, lex_unget_unsave lex c)
    else if c = 92 then
      let (c2, lex2) := lex_get_save S lex
      if c2 = 117 then
        let (c3, lex3) := lex_get_save S lex2
        match hexLoop S 4 c3 lex3 with
        | (none, lex4) => some (false, lex4)
        | (some c4, lex4) => scanStrLoop S fuel c4 lex4
      else if c2 = 34 ∨ c2 = 92 ∨ c2 = 47 ∨ c2 = 98 ∨ c2 = 102 ∨ c2 = 110 ∨ c2 = 114 ∨ c2 = 116 then
        let (c3, lex3) := lex_get_save S lex2
        scanStrLoop S fuel c3 lex3
      else some (false, lex_unget_unsave lex2 c2)
    else
      let (c2, lex2) := lex_get_save S lex
      scanStrLoop S fuel c2 lex2

/-- The lex_scan_string routine: raw scan then decode pass; on any abort
or on a backslash u escape the token is INVALID.  The malloc of the
decoded payload is modelled as always succeeding. -/
def lex_scan_string {σ : Type} (S : Source σ) (fuel : Nat) (lex : LexSt σ) : Option (LexSt σ) :=
  let lex0 : LexSt σ := { lex with token := Token.invalid }
  let (c, lex1) := lex_get_save S lex0
  match scanStrLoop S fuel c lex1 with
  | none => none
  | some (false, lex2) => some lex2
  | some (true, lex2) =>
    match decodeString (lex2.saved.drop 1) with
    | none => some lex2
    | some s => some { lex2 with token := Token.string s }

/-- A maximal digit run: consumes digits and returns the first character
that is not a digit. -/
def digitLoop {σ : Type} (S : Source σ) : Nat → Int → LexSt σ → Option (Int × LexSt σ)
  | 0, _, _ => none
  | fuel + 1, c, lex =>
    if isdigitC c then
      let (c2, lex2) := lex_get_save S lex
      digitLoop S fuel c2 lex2
    else some (c, lex)

/-- The digit prefix of a char list. -/
def digitsOf (l : List Int) : List Int := l.takeWhile (fun c => isdigitC c)

/-- Base ten value of a digit list. -/
def digitsVal (l : List Int) : Int := l.foldl (fun a c => a * 10 + (c - 48)) 0

/-- Largest long value in the LP64 model used by strtol. -/
def LONG_MAX : Int := 9223372036854775807

/-- Smallest long value in the LP64 model used by strtol. -/
def LONG_MIN : Int := -9223372036854775808

/-- The strtol conversion in base ten of the saved text: optional sign,
then the digit prefix; out of range values are clamped to the long range
(LP64, long is 64 bits), which is what strtol does on overflow. -/
def strtol10 (l : List Int) : Int :=
  let sr : Int × List Int :=
    match l with
    | c :: rest => if c = 45 then (-1, rest) else if c = 43 then (1, rest) else (1, l)
    | [] => (1, [])
  max LONG_MIN (min LONG_MAX (sr.1 * digitsVal (digitsOf sr.2)))

/-- Conversion of a long value to int, LP64: two complement wrap to 32
bits, the implementation defined conversion applied when lex_scan_number
stores the strtol result into the int field of the token value. -/
def longToInt (v : Int) : Int := ((v + 2147483648) % 4294967296) - 2147483648

/-- The strtod conversion of the saved text kept exact: the value is the
mantissa times ten to the decimal exponent.  The IEEE rounding of strtod
is not modelled; no claim inspects a real payload. -/
def strtodM (l : List Int) : Int × Int :=
  let sr : Int × List Int :=
    match l with
    | c :: rest => if c = 45 then (-1, rest) else if c = 43 then (1, rest) else (1, l)
    | [] => (1, [])
  let ip := digitsOf sr.2
  let r2 := sr.2.drop ip.length
  let fr : List Int × List Int :=
    match r2 with
    | c :: rest => if c = 46 then (digitsOf rest, rest.drop (digitsOf rest).length) else ([], r2)
    | [] => ([], r2)
  let ev : Int :=
    match fr.2 with
    | c :: rest =>
      if c = 101 ∨ c = 69 then
        match rest with
        | d :: rest2 =>
          if d = 45 then -(digitsVal (digitsOf rest2))
          else if d = 43 then digitsVal (digitsOf rest2)
          else digitsVal (digitsOf rest)
        | [] => 0
      else 0
    | [] => 0
  (sr.1 * digitsVal (ip ++ fr.1), ev - fr.1.length)

/-- The lex_scan_number routine: optional minus, leading zero rule on the
integer part, optional fraction needing a digit right after the dot,
optional exponent needing a digit after the optional sign; INTEGER when
no fraction and no exponent was consumed, REAL otherwise; on the paths
that abort, the token stays INVALID. -/
def lex_scan_number {σ : Type} (S : Source σ) (fuel : Nat) (lex : LexSt σ) (c0 : Int) :
    Option (LexSt σ) :=
  let lexI : LexSt σ := { lex with token := Token.invalid }
  let (c1, lex1) := if c0 = 45 then lex_get_save S lexI else (c0, lexI)
  let ip : Option ((Int × LexSt σ) ⊕ LexSt σ) :=
    if c1 = 48 then
      let (c2, lex2) := lex_get_save S lex1
      if isdigitC c2 then some (Sum.inr (lex_unget_unsave lex2 c2))
      else some (Sum.inl (c2, lex2))
    else
      let (c2, lex2) := lex_get_save S lex1
      (digitLoop S fuel c2 lex2).map Sum.inl
  match ip with
  | none => none
  | some (Sum.inr lexBad) => some lexBad
  | some (Sum.inl (c, lex2)) =>
    if c ≠ 46 ∧ c ≠ 69 ∧ c ≠ 101 then
      let lex3 := lex_unget_unsave lex2 c
      some { lex3 with token := Token.integer (longToInt (strtol10 lex3.saved)) }
    else
      let fr : Option ((Int × LexSt σ) ⊕ LexSt σ) :=
        if c = 46 then
          let (d, lex3) := lex_get S lex2
          if isdigitC d then
            let lex4 := lex_save lex3 d
            let (d2, lex5) := lex_get_save S lex4
            (digitLoop S fuel d2 lex5).map Sum.inl
          else some (Sum.inr lex3)
        else some (Sum.inl (c, lex2))
      match fr with
      | none => none
      | some (Sum.inr lexBad) => some lexBad
      | some (Sum.inl (c2, lex6)) =>
        let ex : Option ((Int × LexSt σ) ⊕ LexSt σ) :=
          if c2 = 69 ∨ c2 = 101 then
            let (d, lex7) := lex_get_save S lex6
            let (d2, lex8) := if d = 43 ∨ d = 45 then lex_get_save S lex7 else (d, lex7)
            if isdigitC d2 then
              let (d3, lex9) := lex_get_save S lex8
              (digitLoop S fuel d3 lex9).map Sum.inl
            else some (Sum.inr (lex_unget_unsave lex8 d2))
          else some (Sum.inl (c2, lex6))
        match ex with
        | none => none
        | some (Sum.inr lexBad) => some lexBad
        | some (Sum.inl (c3, lexA)) =>
          let lexB := lex_unget_unsave lexA c3
          let me := strtodM lexB.saved
          some { lexB with token := Token.real me.1 me.2 }

/-- The keyword scan loop: a maximal run of ASCII letters. -/
def identLoop {σ : Type} (S : Source σ) : Nat → Int → LexSt σ → Option (Int × LexSt σ)
  | 0, _, _ => none
  | fuel + 1, c, lex =>
    if isupperC c ∨ islowerC c then
      let (c2, lex2) := lex_get_save S lex
      identLoop S fuel c2 lex2
    else some (c, lex)

/-- The whitespace skip loop at the top of lex_scan, counting newlines. -/
def skipWsLoop {σ : Type} (S : Source σ) : Nat → Int → LexSt σ → Option (Int × LexSt σ)
  | 0, _, _ => none
  | fuel + 1, c, lex =>
    if c = 32 ∨ c = 9 ∨ c = 10 ∨ c = 13 then
      let lex1 := if c = 10 then { lex with line := lex.line + 1 } else lex
      let (c2, lex2) := lex_get S lex1
      skipWsLoop S fuel c2 lex2
    else some (c, lex)

/-- The lex_scan routine: clears the saved text, skips whitespace, emits
EOF at end of input, otherwise saves the dispatch character and produces
a punctuation, string, number or keyword token, or INVALID. -/
def lex_scan {σ : Type} (S : Source σ) (fuel : Nat) (lex : LexSt σ) : Option (LexSt σ) :=
  let lex0 : LexSt σ := { lex with saved := [] }
  let (c0, lex1) := lex_get S lex0
  match skipWsLoop S fuel c0 lex1 with
  | none => none
  | some (c, lex2) =>
    if c = -1 ∧ lex_eof S lex2 then some { lex2 with token := Token.eof }
    else
      let lex3 := lex_save lex2 c
      if c = 123 ∨ c = 125 ∨ c = 91 ∨ c = 93 ∨ c = 58 ∨ c = 44 then
        some { lex3 with token := Token.punct c }
      else if c = 34 then lex_scan_string S fuel lex3
      else if isdigitC c ∨ c = 45 then lex_scan_number S fuel lex3 c
      else if isupperC c ∨ islowerC c then
        let (c2, lex4) := lex_get_save S lex3
        match identLoop S fuel c2 lex4 with
        | none => none
        | some (c3, lex5) =>
          let lex6 := lex_unget_unsave lex5 c3
          if lex6.saved = ascii "true" then some { lex6 with token := Token.tru }
          else if lex6.saved = ascii "false" then some { lex6 with token := Token.fls }
          else if lex6.saved = ascii "null" then some { lex6 with token := Token.nul }
          else some { lex6 with token := Token.invalid }
      else some { lex3 with token := Token.invalid }

/-- The lex_init state: empty stream buffer, empty saved text, INVALID
token and line 1. -/
def lex_init {σ : Type} (data : σ) : LexSt σ :=
  { stream := { src := data, pending := [] }, saved := [], token := Token.invalid, line := 1 }

/-- The value tree built through the external value model contract: an
object is a list of members in insertion order, an array a list of
elements. -/
inductive Json where
  | obj (ms : List (List Int × Json))
  | arr (es : List Json)
  | str (s : List Int)
  | int (n : Int)
  | real (mant : Int) (dexp : Int)
  | tru
  | fls
  | nul
deriving Repr

/-- Length bound of the error text buffer, from the public header which
is absent from src; the spec only asks for a bounded length message. -/
def JSON_ERROR_TEXT_LENGTH : Nat := 160

/-- A diagnostic record: line number and message text. -/
structure JsonError where
  line : Int
  text : List Int
deriving DecidableEq, Repr

/-- Truncation performed by snprintf into the fixed size text buffer. -/
def snTrunc (l : List Int) : List Int := l.take (JSON_ERROR_TEXT_LENGTH - 1)

/-- The error_set reporter.  The destination is optional: none models a
NULL destination and the call is then a no op.  The message is taken
already formatted, vsnprintf is not modelled.  With lexer state present
the line is taken from the lexer, and the message is suffixed with the
raw token text between single quote characters when it is nonempty, or
with the end of file wording otherwise; without lexer state the line is
the sentinel -1 and the message is kept verbatim. -/
def error_set (e : Option JsonError) (lexv : Option (Int × List Int)) (msg : List Int) :
    Option JsonError :=
  match e with
  | none => none
  | some _ =>
    let text := snTrunc msg
    match lexv with
    | some lv =>
      if lv.2 ≠ [] then
        some { line := lv.1, text := snTrunc (text ++ ascii " near " ++ [39] ++ lv.2 ++ [39]) }
      else
        some { line := lv.1, text := snTrunc (text ++ ascii " near end of file") }
    | none => some { line := -1, text := text }

/-- Message of the top level dispatch failure, a left bracket or a left
brace was expected. -/
def msg_bracket : List Int := [39, 91, 39] ++ ascii " or " ++ [39, 123, 39] ++ ascii " expected"

/-- Message of the missing key failure in an object. -/
def msg_string_or : List Int := ascii "string or " ++ [39, 125, 39] ++ ascii " expected"

/-- Message of the missing colon failure in an object. -/
def msg_colon : List Int := [39, 58, 39] ++ ascii " expected"

/-- Message of the missing closing brace failure. -/
def msg_rbrace : List Int := [39, 125, 39] ++ ascii " expected"

/-- Message of the missing closing bracket failure. -/
def msg_rbracket : List Int := [39, 93, 39] ++ ascii " expected"

/-- Parser state: the lexer, the optional diagnostic destination, the
count of live value tree nodes (allocated and not yet released, the
instrumentation for the release on error discipline), and the fault
injection budget for the key copy. -/
structure PSt (σ : Type) where
  lex : LexSt σ
  err : Option JsonError
  live : Nat
  sb : Option Nat

/-- Fault injection for the key copy (strdup) in parse_object: with
budget some n the n-th upcoming copy fails; with none every allocation
succeeds. -/
def strdupStep : Option Nat → Bool × Option Nat
  | none => (true, none)
  | some 0 => (false, none)
  | some (n + 1) => (true, some n)

/-- Modelled from the spec: insertion into an object by the external
json_object_set_nocheck contract, which is absent from src.  A duplicate
key overwrites silently, last write wins, and the value previously held
under the key is released; a new key is appended, preserving insertion
order.  Members carry their node count so release can be accounted; the
returned nat is the node count of the released previous value, zero when
the key is new. -/
def objSet : List (List Int × Json × Nat) → List Int → Json × Nat →
    List (List Int × Json × Nat) × Nat
  | [], k, vn => ([(k, vn.1, vn.2)], 0)
  | (k2, v2, n2) :: rest, k, vn =>
    if k2 = k then ((k, vn.1, vn.2) :: rest, n2)
    else
      let r := objSet rest k vn
      ((k2, v2, n2) :: r.1, r.2)

/-- Total node count of the members built so far. -/
def sizeMembers (ms : List (List Int × Json × Nat)) : Nat :=
  ms.foldl (fun a e => a + e.2.2) 0

/-- Total node count of the elements built so far. -/
def sizeElems (es : List (Json × Nat)) : Nat :=
  es.foldl (fun a e => a + e.2) 0

/-- Members stripped of their node counts, the value handed out. -/
def stripMs (ms : List (List Int × Json × Nat)) : List (List Int × Json) :=
  ms.map (fun e => (e.1, e.2.1))

/-- Elements stripped of their node counts. -/
def stripEs (es : List (Json × Nat)) : List Json :=
  es.map (fun e => e.1)

/-- The five routines of the recursive descent parser at a given fuel
level, bundled so that the recursion is a single descent on fuel. -/
structure Parsers (σ : Type) where
  value : PSt σ → Option (Option (Json × Nat) × PSt σ)
  objectP : PSt σ → Option (Option (Json × Nat) × PSt σ)
  oloop : PSt σ → List (List Int × Json × Nat) → Option (Option (Json × Nat) × PSt σ)
  arrayP : PSt σ → Option (Option (Json × Nat) × PSt σ)
  aloop : PSt σ → List (Json × Nat) → Option (Option (Json × Nat) × PSt σ)

/-- One level of the recursive descent parser: the bodies of parse_value,
parse_object, its member loop, parse_array and its element loop, where
every nested call runs at the previous level P with fuel for the lexer.

The value production builds a scalar node from the current token,
delegates containers, fails on INVALID with the invalid token message and
on any other token with the unexpected token message; every value is
returned together with its node count.

The object production allocates the object node, returns it empty on an
immediate closing brace, otherwise enters the member loop.  In the loop,
on each failure the partially built object is released (its node count
leaves the live counter) before failing, except on the key copy failure
where the C code returns without releasing the object, so its nodes stay
live; the insertion failure path of the C code is never taken since the
modelled set contract always succeeds.

The array production is symmetric without keys; the loop condition of
the C code exits on the EOF token, and the closing bracket check follows;
the append failure path of the C code is never taken since the modelled
append contract always succeeds. -/
def parse_step {σ : Type} (S : Source σ) (fuel : Nat) (P : Parsers σ) : Parsers σ where
  value st :=
    match st.lex.token with
    | Token.string s => some (some (Json.str s, 1), { st with live := st.live + 1 })
    | Token.integer n => some (some (Json.int n, 1), { st with live := st.live + 1 })
    | Token.real m e => some (some (Json.real m e, 1), { st with live := st.live + 1 })
    | Token.tru => some (some (Json.tru, 1), { st with live := st.live + 1 })
    | Token.fls => some (some (Json.fls, 1), { st with live := st.live + 1 })
    | Token.nul => some (some (Json.nul, 1), { st with live := st.live + 1 })
    | Token.punct c =>
      if c = 123 then P.objectP st
      else if c = 91 then P.arrayP st
      else
        some (none, { st with
          err := error_set st.err (some (st.lex.line, st.lex.saved)) (ascii "unexpected token") })
    | Token.invalid =>
      some (none, { st with
        err := error_set st.err (some (st.lex.line, st.lex.saved)) (ascii "invalid token") })
    | Token.eof =>
      some (none, { st with
        err := error_set st.err (some (st.lex.line, st.lex.saved)) (ascii "unexpected token") })
  objectP st :=
    let st1 : PSt σ := { st with live := st.live + 1 }
    match lex_scan S fuel st1.lex with
    | none => none
    | some lex =>
      if lex.token = Token.punct 125 then some (some (Json.obj [], 1), { st1 with lex := lex })
      else P.oloop { st1 with lex := lex } []
  oloop st ms :=
    match st.lex.token with
    | Token.string key =>
      match strdupStep st.sb with
      | (false, sb2) => some (none, { st with sb := sb2 })
      | (true, sb2) =>
        let st1 : PSt σ := { st with sb := sb2 }
        match lex_scan S fuel st1.lex with
        | none => none
        | some lex2 =>
          if lex2.token ≠ Token.punct 58 then
            some (none, { st1 with
              lex := lex2,
              err := error_set st1.err (some (lex2.line, lex2.saved)) msg_colon,
              live := st1.live - (1 + sizeMembers ms) })
          else
            match lex_scan S fuel lex2 with
            | none => none
            | some lex3 =>
              match P.value { st1 with lex := lex3 } with
              | none => none
              | some (none, st2) =>
                some (none, { st2 with live := st2.live - (1 + sizeMembers ms) })
              | some (some vn, st2) =>
                let msf := objSet ms key vn
                let st3 : PSt σ := { st2 with live := st2.live - msf.2 }
                match lex_scan S fuel st3.lex with
                | none => none
                | some lex4 =>
                  if lex4.token ≠ Token.punct 44 then
                    if lex4.token = Token.punct 125 then
                      some (some (Json.obj (stripMs msf.1), 1 + sizeMembers msf.1),
                        { st3 with lex := lex4 })
                    else
                      some (none, { st3 with
                        lex := lex4,
                        err := error_set st3.err (some (lex4.line, lex4.saved)) msg_rbrace,
                        live := st3.live - (1 + sizeMembers msf.1) })
                  else
                    match lex_scan S fuel lex4 with
                    | none => none
                    | some lex5 => P.oloop { st3 with lex := lex5 } msf.1
    | _ =>
      some (none, { st with
        err := error_set st.err (some (st.lex.line, st.lex.saved)) msg_string_or,
        live := st.live - (1 + sizeMembers ms) })
  arrayP st :=
    let st1 : PSt σ := { st with live := st.live + 1 }
    match lex_scan S fuel st1.lex with
    | none => none
    | some lex =>
      if lex.token = Token.punct 93 then some (some (Json.arr [], 1), { st1 with lex := lex })
      else P.aloop { st1 with lex := lex } []
  aloop st es :=
    if st.lex.token = Token.eof then
      some (none, { st with
        err := error_set st.err (some (st.lex.line, st.lex.saved)) msg_rbracket,
        live := st.live - (1 + sizeElems es) })
    else
      match P.value st with
      | none => none
      | some (none, st2) =>
        some (none, { st2 with live := st2.live - (1 + sizeElems es) })
      | some (some vn, st2) =>
        let es2 := es ++ [vn]
        match lex_scan S fuel st2.lex with
        | none => none
        | some lex2 =>
          if lex2.token ≠ Token.punct 44 then
            if lex2.token = Token.punct 93 then
              some (some (Json.arr (stripEs es2), 1 + sizeElems es2), { st2 with lex := lex2 })
            else
              some (none, { st2 with
                lex := lex2,
                err := error_set st2.err (some (lex2.line, lex2.saved)) msg_rbracket,
                live := st2.live - (1 + sizeElems es2) })
          else
            match lex_scan S fuel lex2 with
            | none => none
            | some lex3 => P.aloop { st2 with lex := lex3 } es2

/-- The empty parser level: out of fuel, every routine answers none. -/
def parsersNone {σ : Type} : Parsers σ :=
  ⟨fun _ => none, fun _ => none, fun _ _ => none, fun _ => none, fun _ _ => none⟩

/-- The parser at a fuel level: one parse_step per level. -/
def parsers {σ : Type} (S : Source σ) : Nat → Parsers σ
  | 0 => parsersNone
  | fuel + 1 => parse_step S fuel (parsers S fuel)

/-- The parse_value production at a fuel level. -/
def parse_value {σ : Type} (S : Source σ) (fuel : Nat) (st : PSt σ) :
    Option (Option (Json × Nat) × PSt σ) :=
  (parsers S fuel).value st

/-- The parse_object production at a fuel level. -/
def parse_object {σ : Type} (S : Source σ) (fuel : Nat) (st : PSt σ) :
    Option (Option (Json × Nat) × PSt σ) :=
  (parsers S fuel).objectP st

/-- The member loop of parse_object at a fuel level. -/
def obj_loop {σ : Type} (S : Source σ) (fuel : Nat) (st : PSt σ)
    (ms : List (List Int × Json × Nat)) : Option (Option (Json × Nat) × PSt σ) :=
  (parsers S fuel).oloop st ms

/-- The parse_array production at a fuel level. -/
def parse_array {σ : Type} (S : Source σ) (fuel : Nat) (st : PSt σ) :
    Option (Option (Json × Nat) × PSt σ) :=
  (parsers S fuel).arrayP st

/-- The element loop of parse_array at a fuel level. -/
def arr_loop {σ : Type} (S : Source σ) (fuel : Nat) (st : PSt σ)
    (es : List (Json × Nat)) : Option (Option (Json × Nat) × PSt σ) :=
  (parsers S fuel).aloop st es

/-- The parse_json top level production: scans the first token, which
must be a left bracket or a left brace, and delegates to parse_value;
otherwise it fails with the bracket or brace message and no tree. -/
def parse_json {σ : Type} (S : Source σ) (fuel : Nat) (st : PSt σ) :
    Option (Option (Json × Nat) × PSt σ) :=
  match lex_scan S fuel st.lex with
  | none => none
  | some lex =>
    if lex.token ≠ Token.punct 91 ∧ lex.token ≠ Token.punct 123 then
      some (none, { st with
        lex := lex,
        err := error_set st.err (some (lex.line, lex.saved)) msg_bracket })
    else parse_value S fuel { st with lex := lex }

/-- The in memory string source: reading the terminator or reading past
the end of the buffer yields the end of input sentinel, and the eof
callback reports exhaustion when the cursor stands on the terminator. -/
def string_source : Source (List Nat) :=
  { get := fun d =>
      match d with
      | [] => (-1, [])
      | b :: rest => (if b = 0 then -1 else sgnChar b, rest),
    eof := fun d =>
      match d with
      | [] => true
      | b :: _ => b == 0 }

/-- State of a file source: the remaining bytes and the flag that feof
reports, set once a read hit the end. -/
structure FileSt where
  bytes : List Nat
  hit : Bool

/-- The file source over fgetc and feof: fgetc returns the byte as a
nonnegative int or -1 at end of file, and feof is set only after a read
hit the end. -/
def file_source : Source FileSt :=
  { get := fun f =>
      match f.bytes with
      | [] => (-1, { f with hit := true })
      | b :: rest => ((b : Int), { f with bytes := rest }),
    eof := fun f => f.hit }

/-- Fresh parser state over a source state: lexer from lex_init, a zeroed
diagnostic destination when one is given, no live nodes, and the given
key copy fault budget. -/
def pst_init {σ : Type} (data : σ) (errDest : Bool) (sb : Option Nat) : PSt σ :=
  { lex := lex_init data,
    err := if errDest then some { line := 0, text := [] } else none,
    live := 0, sb := sb }

/-- The json_loads entry point over an in memory string: parses the top
level value, then scans one more token and requires EOF; trailing content
fails with the end of file expected message and releases the tree.  The
result is the tree, the final diagnostic destination and the count of
live nodes. -/
def json_loads (fuel : Nat) (input : List Nat) (errDest : Bool) (sb : Option Nat) :
    Option (Option Json × Option JsonError × Nat) :=
  match parse_json string_source fuel (pst_init input errDest sb) with
  | none => none
  | some (none, st) => some (none, st.err, st.live)
  | some (some vn, st) =>
    match lex_scan string_source fuel st.lex with
    | none => none
    | some lex =>
      if lex.token ≠ Token.eof then
        some (none,
          error_set st.err (some (lex.line, lex.saved)) (ascii "end of file expected"),
          st.live - vn.2)
      else some (some vn.1, st.err, st.live)

/-- The json_loadf entry point over a file: parses the top level value
and returns it as is; no token is scanned after the top level value. -/
def json_loadf (fuel : Nat) (input : List Nat) (errDest : Bool) (sb : Option Nat) :
    Option (Option Json × Option JsonError × Nat) :=
  match parse_json file_source fuel (pst_init { bytes := input, hit := false } errDest sb) with
  | none => none
  | some (vn, st) => some (vn.map (fun p => p.1), st.err, st.live)

/-- Projection of a parse result that forgets the diagnostic destination,
keeping the tree, the lexer state, the live counter and the fault
budget. -/
def sansErr {σ : Type} (x : Option (Option (Json × Nat) × PSt σ)) :
    Option (Option (Json × Nat) × LexSt σ × Nat × Option Nat) :=
  x.map (fun p => (p.1, p.2.lex, p.2.live, p.2.sb))

/-!  Theorems about the claims.  Example inputs are given as byte lists;
the comments show the corresponding JSON text. -/

/-- The claim of C1 as stated is refuted by the file entry point: parsing
the document left brace, right brace, then the word trailing through
json_loadf succeeds and returns the empty object tree, with no scan of a
token after the top level value and no diagnostic written. -/
theorem spec_c1_counterexample :
    json_loadf 99 [123, 125, 116, 114, 97, 105, 108, 105, 110, 103] true none =
      some (some (Json.obj []), some { line := 0, text := [] }, 1) := rfl

/-- C1 amended: the in memory string entry point scans one more token
after the top level value and requires EOF, failing with the end of file
expected message and releasing the tree on trailing content; the file
entry point performs no such check.  The first part states this for
every input and fuel on which the scans terminate; the closed parts
evaluate the two entry points on the empty object document with and
without trailing content. -/
theorem spec_c1 :
    (∀ (fuel : Nat) (input : List Nat) (eD : Bool) (sb : Option Nat) (vn : Json × Nat)
        (st : PSt (List Nat)) (lex2 : LexSt (List Nat)),
        parse_json string_source fuel (pst_init input eD sb) = some (some vn, st) →
        lex_scan string_source fuel st.lex = some lex2 →
        lex2.token ≠ Token.eof →
        json_loads fuel input eD sb =
          some (none,
            error_set st.err (some (lex2.line, lex2.saved)) (ascii "end of file expected"),
            st.live - vn.2)) ∧
    json_loads 99 [123, 125] true none =
      some (some (Json.obj []), some { line := 0, text := [] }, 1) ∧
    json_loads 99 [123, 125, 116, 114, 97, 105, 108, 105, 110, 103] true none =
      some (none,
        some { line := 1,
               text := ascii "end of file expected near " ++ [39] ++ ascii "trailing" ++ [39] },
        0) ∧
    json_loadf 99 [123, 125, 116, 114, 97, 105, 108, 105, 110, 103] true none =
      some (some (Json.obj []), some { line := 0, text := [] }, 1) := by
  refine ⟨?_, rfl, rfl, rfl⟩
  intro fuel input eD sb vn st lex2 h1 h2 h3
  simp only [json_loads, h1, h2, if_pos h3]

/-- Witness for C1: the amended statement applied to the document of an
empty object followed by the letter x. -/
theorem spec_c1_witness :
    json_loads 99 [123, 125, 120] true none =
      some (none,
        some { line := 1, text := ascii "end of file expected near " ++ [39, 120, 39] }, 0) := by
  have h := spec_c1.1 99 [123, 125, 120] true none (Json.obj [], 1)
    { lex := { stream := { src := [120], pending := [] }, saved := [125],
               token := Token.punct 125, line := 1 },
      err := some { line := 0, text := [] }, live := 1, sb := none }
    { stream := { src := [], pending := [-1] }, saved := [120],
      token := Token.invalid, line := 1 }
    rfl rfl (by decide)
  rw [h]
  rfl

/-- C2 evaluated at the failing input: parsing the object with one member
a holding 1, with the key copy made to fail, returns no tree yet leaves
one node live (the partially built object is not released) and writes no
diagnostic; without fault injection the same document parses to a tree of
two live nodes, and an ordinary syntax failure (value missing after the
colon) releases everything, leaving zero live nodes. -/
theorem spec_c2_leak :
    json_loads 99 [123, 34, 97, 34, 58, 49, 125] true (some 0) =
      some (none, some { line := 0, text := [] }, 1) ∧
    json_loads 99 [123, 34, 97, 34, 58, 49, 125] true none =
      some (some (Json.obj [([97], Json.int 1)]), some { line := 0, text := [] }, 2) ∧
    json_loads 99 [123, 34, 97, 34, 58, 125] true none =
      some (none,
        some { line := 1, text := ascii "unexpected token near " ++ [39, 125, 39] }, 0) :=
  ⟨rfl, rfl, rfl⟩

/-- C5 evaluated: the document 0 lexes as INTEGER zero; 01 is rejected by
the leading zero rule with the second digit pushed back; -0 lexes as
INTEGER zero; 1.5e10 lexes as REAL (mantissa 15, decimal exponent 9).
The last two parts evaluate the code at the failing input: the text
minus comma one lexes as INTEGER zero with raw text containing the
comma, and the document bracket minus comma one bracket parses
successfully to the array holding zero, although it is not a JSON
document. -/
theorem spec_c5_eval :
    lex_scan string_source 99 (lex_init [48]) =
      some { stream := { src := [], pending := [-1] }, saved := [48],
             token := Token.integer 0, line := 1 } ∧
    lex_scan string_source 99 (lex_init [48, 49]) =
      some { stream := { src := [], pending := [49] }, saved := [48],
             token := Token.invalid, line := 1 } ∧
    lex_scan string_source 99 (lex_init [45, 48]) =
      some { stream := { src := [], pending := [-1] }, saved := [45, 48],
             token := Token.integer 0, line := 1 } ∧
    lex_scan string_source 99 (lex_init [49, 46, 53, 101, 49, 48]) =
      some { stream := { src := [], pending := [-1] }, saved := [49, 46, 53, 101, 49, 48],
             token := Token.real 15 9, line := 1 } ∧
    lex_scan string_source 99 (lex_init [45, 44, 49, 93]) =
      some { stream := { src := [], pending := [93] }, saved := [45, 44, 49],
             token := Token.integer 0, line := 1 } ∧
    json_loads 99 [91, 45, 44, 49, 93] true none =
      some (some (Json.arr [Json.int 0]), some { line := 0, text := [] }, 2) :=
  ⟨rfl, rfl, rfl, rfl, rfl, rfl⟩

/-- C9 evaluated: the object document with key a bound to 1 and then to 2
parses successfully; the later member overwrites the earlier one, the
resulting object holds exactly the single member a with value 2. -/
theorem spec_c9_dup :
    json_loads 99 [123, 34, 97, 34, 58, 49, 44, 34, 97, 34, 58, 50, 125] true none =
      some (some (Json.obj [([97], Json.int 2)]), some { line := 0, text := [] }, 2) ∧
    ([([97], Json.int 2)].countP (fun m => m.1 == [97])) = 1 :=
  ⟨rfl, rfl⟩

/-- C10 evaluated: the decoded integer payload goes through strtol and a
conversion to int with no range check.  The literal 2147483648, one past
the largest int, parses successfully to the wrapped value -2147483648;
the literal of twenty nines, beyond the long range, is clamped by strtol
to LONG_MAX whose low 32 bits make -1; both parses succeed and neither
stored value equals the mathematical value of its literal. -/
theorem spec_c10_overflow :
    json_loads 99 [91, 50, 49, 52, 55, 52, 56, 51, 54, 52, 56, 93] true none =
      some (some (Json.arr [Json.int (-2147483648)]), some { line := 0, text := [] }, 2) ∧
    json_loads 99
        [91, 57, 57, 57, 57, 57, 57, 57, 57, 57, 57, 57, 57, 57, 57, 57, 57, 57, 57, 57, 57, 93]
        true none =
      some (some (Json.arr [Json.int (-1)]), some { line := 0, text := [] }, 2) ∧
    ((-2147483648 : Int) ≠ 2147483648) ∧ ((-1 : Int) ≠ 99999999999999999999) :=
  ⟨rfl, rfl, by decide, by decide⟩

/-- C3: for every source and every state, once the first token of the
document is scanned, parse_json fails with the bracket or brace expected
message and no tree whenever that token is neither a left bracket nor a
left brace, and otherwise hands the state to parse_value, which attempts
the corresponding container. -/
theorem spec_c3_top_dispatch {σ : Type} (S : Source σ) (fuel : Nat) (st : PSt σ)
    (lex2 : LexSt σ) (hscan : lex_scan S fuel st.lex = some lex2) :
    (lex2.token ≠ Token.punct 91 ∧ lex2.token ≠ Token.punct 123 →
      parse_json S fuel st =
        some (none, { st with
          lex := lex2,
          err := error_set st.err (some (lex2.line, lex2.saved)) msg_bracket })) ∧
    (lex2.token = Token.punct 91 ∨ lex2.token = Token.punct 123 →
      parse_json S fuel st = parse_value S fuel { st with lex := lex2 }) := by
  constructor
  · intro h
    simp only [parse_json, hscan, if_pos h]
  · intro h
    have hne : ¬(lex2.token ≠ Token.punct 91 ∧ lex2.token ≠ Token.punct 123) := by
      rcases h with h | h <;> simp [h]
    simp only [parse_json, parse_value, hscan, if_neg hne]

/-- Witness for C3: the bare identifier trailing as the whole document
is not a bracket or a brace, so the parse fails with the bracket or
brace expected message near the whole identifier; no tree is built. -/
theorem spec_c3_witness :
    parse_json string_source 99 (pst_init [116, 114, 97, 105, 108, 105, 110, 103] true none) =
      some (none,
        ⟨⟨⟨[], [-1]⟩, [116, 114, 97, 105, 108, 105, 110, 103], Token.invalid, 1⟩,
         some ⟨1, msg_bracket ++ ascii " near " ++ [39] ++
           [116, 114, 97, 105, 108, 105, 110, 103] ++ [39]⟩,
         0, none⟩) := by
  have h := (spec_c3_top_dispatch string_source 99
    (pst_init [116, 114, 97, 105, 108, 105, 110, 103] true none)
    { stream := { src := [], pending := [-1] },
      saved := [116, 114, 97, 105, 108, 105, 110, 103],
      token := Token.invalid, line := 1 } rfl).1 (by decide)
  rw [h]
  rfl

/-- A byte below 128 reads back as itself through the signed char view. -/
theorem sgnChar_small (b : Nat) (h : b < 128) : sgnChar b = (b : Int) := by
  simp [sgnChar, h]

/-- Wrapping an int already in byte range below 128 is the identity. -/
theorem toChar_byte (b : Nat) (h : b < 128) : toChar (b : Int) = (b : Int) := by
  unfold toChar
  have h1 : ((b : Int) + 128) % 256 = (b : Int) + 128 :=
    Int.emod_eq_of_lt (by omega) (by omega)
  omega

/-- Unfolding of the decode pass at the closing quote. -/
theorem decodeString_quote (rest : List Int) : decodeString (34 :: rest) = some [] := by
  rw [decodeString.eq_def]; simp

/-- Unfolding of the decode pass at a raw text ending in a backslash. -/
theorem decodeString_bs_nil : decodeString [92] = none := by
  rw [decodeString.eq_def]; simp

/-- Unfolding of the decode pass at a backslash u escape: the token is
always rejected there. -/
theorem decodeString_u (rest : List Int) : decodeString (92 :: 117 :: rest) = none := by
  rw [decodeString.eq_def]; simp

/-- Unfolding of the decode pass at a recognized two character escape. -/
theorem decodeString_esc (q b : Int) (hq : escDecode q = some b) (rest : List Int) :
    decodeString (92 :: q :: rest) = (decodeString rest).map (fun l => b :: l) := by
  have hu : q ≠ 117 := by
    intro h; subst h; simp [escDecode] at hq
  rw [decodeString.eq_def]; simp [hu, hq]

/-- Unfolding of the decode pass at an unrecognized escape. -/
theorem decodeString_escnone (q : Int) (hq : escDecode q = none) (rest : List Int) :
    decodeString (92 :: q :: rest) = none := by
  rw [decodeString.eq_def]
  by_cases hu : q = 117 <;> simp [hu, hq]

/-- Unfolding of the decode pass at an ordinary copied character. -/
theorem decodeString_plain (p : Int) (h34 : p ≠ 34) (h92 : p ≠ 92) (rest : List Int) :
    decodeString (p :: rest) = (decodeString rest).map (fun l => p :: l) := by
  rw [decodeString.eq_def]; simp [h34, h92]

/-- Bounded length decoding: whenever the decode pass succeeds, the
decoded value is at most as long as the raw text it came from. -/
theorem decodeString_le_length :
    ∀ (l s : List Int), decodeString l = some s → s.length ≤ l.length := by
  have key : ∀ (n : Nat) (l s : List Int), l.length ≤ n → decodeString l = some s →
      s.length ≤ l.length := by
    intro n
    induction n with
    | zero =>
      intro l s hl hd
      cases l with
      | nil =>
        rw [decodeString.eq_def] at hd
        simp only [Option.some.injEq] at hd
        subst hd; simp
      | cons p rest => simp at hl
    | succ n ih =>
      intro l s hl hd
      cases l with
      | nil =>
        rw [decodeString.eq_def] at hd
        simp only [Option.some.injEq] at hd
        subst hd; simp
      | cons p rest =>
        by_cases h34 : p = 34
        · subst h34
          rw [decodeString_quote] at hd
          obtain rfl : ([] : List Int) = s := Option.some.inj hd
          simp
        · by_cases h92 : p = 92
          · subst h92
            cases rest with
            | nil =>
              rw [decodeString_bs_nil] at hd
              simp at hd
            | cons q rest2 =>
              by_cases hu : q = 117
              · subst hu
                rw [decodeString_u] at hd
                simp at hd
              · cases heq : escDecode q with
                | none =>
                  rw [decodeString_escnone q heq] at hd
                  simp at hd
                | some b =>
                  rw [decodeString_esc q b heq, Option.map_eq_some'] at hd
                  rcases hd with ⟨s2, hs2, rfl⟩
                  have hlen := ih rest2 s2 (by simp at hl; omega) hs2
                  simp only [List.length_cons]
                  omega
          · rw [decodeString_plain p h34 h92, Option.map_eq_some'] at hd
            rcases hd with ⟨s2, hs2, rfl⟩
            have hlen := ih rest s2 (by simp at hl; omega) hs2
            simp only [List.length_cons]
            omega
  intro l s
  exact key l.length l s le_rfl

/-- C6: the escape table of the decode pass maps each two character
escape to its single decoded byte; every character other than a quote or
a backslash is copied unchanged; the decoded value is never longer than
the raw text; and scanning the string literal quote a backslash t b quote
produces the three character payload a, tab, b. -/
theorem spec_c6_escapes :
    (escDecode 34 = some 34 ∧ escDecode 92 = some 92 ∧ escDecode 47 = some 47 ∧
     escDecode 98 = some 8 ∧ escDecode 102 = some 12 ∧ escDecode 110 = some 10 ∧
     escDecode 114 = some 13 ∧ escDecode 116 = some 9) ∧
    (∀ (q b : Int), escDecode q = some b →
      ∀ rest, decodeString (92 :: q :: rest) = (decodeString rest).map (fun l => b :: l)) ∧
    (∀ (p : Int) rest, p ≠ 34 → p ≠ 92 →
      decodeString (p :: rest) = (decodeString rest).map (fun l => p :: l)) ∧
    (∀ (l s : List Int), decodeString l = some s → s.length ≤ l.length) ∧
    lex_scan string_source 99 (lex_init [34, 97, 92, 116, 98, 34]) =
      some { stream := { src := [], pending := [] }, saved := [34, 97, 92, 116, 98, 34],
             token := Token.string [97, 9, 98], line := 1 } := by
  refine ⟨by decide, ?_, ?_, decodeString_le_length, rfl⟩
  · intro q b hq rest
    exact decodeString_esc q b hq rest
  · intro p rest h34 h92
    exact decodeString_plain p h34 h92 rest

/-- Witness for C6: the decode pass applied to the raw content a
backslash t b yields a, tab, b, which is not longer than the raw text. -/
theorem spec_c6_witness :
    ([97, 9, 98] : List Int).length ≤ ([97, 92, 116, 98] : List Int).length := by
  have h := spec_c6_escapes.2.2.2.1 [97, 92, 116, 98] [97, 9, 98] rfl
  exact h

/-- C7: an unescaped control character (code below 32) inside a string
literal terminates the raw scan before being consumed: the token is
INVALID, the character stands pushed back on the stream, and the saved
text holds only the opening quote.  The closed parts evaluate a string
with a literal newline between the quotes, and strings holding malformed
UTF-8 (a bare continuation byte 128, which yields the invalid character
0 and the same INVALID outcome); both surface as INVALID tokens. -/
theorem spec_c7_encoding :
    (∀ (k : Nat) (rest : List Nat) (fuel : Nat) (lex2 : LexSt (List Nat)),
      1 ≤ k → k ≤ 31 →
      lex_scan string_source fuel (lex_init (34 :: k :: rest)) = some lex2 →
      lex2.token = Token.invalid ∧ lex2.stream = ⟨rest, [(k : Int)]⟩ ∧ lex2.saved = [34]) ∧
    lex_scan string_source 99 (lex_init [34, 97, 10, 98, 34]) =
      some { stream := { src := [98, 34], pending := [10] }, saved := [34, 97],
             token := Token.invalid, line := 1 } ∧
    lex_scan string_source 99 (lex_init [34, 97, 128, 98, 34]) =
      some { stream := { src := [98, 34], pending := [0] }, saved := [34, 97],
             token := Token.invalid, line := 1 } := by
  refine ⟨?_, rfl, rfl⟩
  intro k rest fuel lex2 h1 h31 hscan
  have hk0 : ¬(k = 0) := by omega
  have hklt : k < 128 := by omega
  have hkm1 : ((k : Int)) ≠ -1 := by omega
  have hkneg : ¬((k : Int) < 0) := by omega
  have hk34 : ((k : Int)) ≠ 34 := by omega
  have hk92 : ((k : Int)) ≠ 92 := by omega
  have hkctl : (0 : Int) ≤ (k : Int) ∧ (k : Int) ≤ 31 := by omega
  have h34c : toChar 34 = 34 := by decide
  cases fuel with
  | zero => simp [lex_scan, skipWsLoop, lex_get, stream_get, string_source] at hscan
  | succ f =>
    simp [lex_scan, lex_init, lex_get, lex_get_save, lex_save, lex_eof,
      lex_unget_unsave, stream_get, stream_unget, string_source, sgnChar,
      skipWsLoop, lex_scan_string, scanStrLoop, isdigitC, isupperC, islowerC,
      hk0, hklt, hkm1, hkneg, hk34, hk92, hkctl, toChar_byte k hklt, h34c] at hscan
    subst hscan
    exact ⟨rfl, rfl, rfl⟩

/-- Witness for C7: the control character rule applied to a string
opening onto a literal newline (code 10): the scan stops with an INVALID
token, the newline pushed back and only the quote saved. -/
theorem spec_c7_witness :
    (({ stream := { src := [98], pending := [10] }, saved := [34],
        token := Token.invalid, line := 1 } : LexSt (List Nat)).token = Token.invalid ∧
     ({ stream := { src := [98], pending := [10] }, saved := [34],
        token := Token.invalid, line := 1 } : LexSt (List Nat)).stream =
       ⟨[98], [(10 : Int)]⟩ ∧
     ({ stream := { src := [98], pending := [10] }, saved := [34],
        token := Token.invalid, line := 1 } : LexSt (List Nat)).saved = [34]) := by
  exact spec_c7_encoding.1 10 [98] 99
    { stream := { src := [98], pending := [10] }, saved := [34],
      token := Token.invalid, line := 1 }
    (by decide) (by decide) rfl

/-- Byte facts derivable from a positive hex digit check. -/
theorem isxdigit_byte_facts (d : Nat) (h : isxdigitC (d : Int) = true) :
    ¬(d = 0) ∧ d < 128 ∧ ((d : Int)) ≠ -1 ∧ ¬((d : Int) < 0) := by
  simp [isxdigitC, isdigitC] at h
  refine ⟨?_, ?_, ?_, ?_⟩ <;> omega

/-- The decode pass rejects a backslash u escape wherever it stands in
the raw text: any prefix of plainly copied characters before it does not
save the token. -/
theorem decodeString_u_anywhere : ∀ (pre post : List Int),
    (∀ c ∈ pre, c ≠ 34 ∧ c ≠ 92) →
    decodeString (pre ++ 92 :: 117 :: post) = none := by
  intro pre
  induction pre with
  | nil => intro post h; exact decodeString_u post
  | cons c pre ih =>
    intro post h
    have hc := h c (by simp)
    rw [List.cons_append, decodeString_plain c hc.1 hc.2,
      ih post (fun x hx => h x (by simp [hx]))]
    rfl

/-- Shape acceptance of a backslash u escape: with exactly four hex
digits the raw scan runs through the whole literal (the stream stands
right after the closing quote, the saved text holds the entire literal),
yet the token is INVALID because the decode pass rejects the escape. -/
theorem lex_u_four_hex (d1 d2 d3 d4 : Nat) (rest : List Nat) (fuel : Nat)
    (lex2 : LexSt (List Nat))
    (hx1 : isxdigitC (d1 : Int) = true) (hx2 : isxdigitC (d2 : Int) = true)
    (hx3 : isxdigitC (d3 : Int) = true) (hx4 : isxdigitC (d4 : Int) = true)
    (hscan : lex_scan string_source fuel
      (lex_init (34 :: 92 :: 117 :: d1 :: d2 :: d3 :: d4 :: 34 :: rest)) = some lex2) :
    lex2.token = Token.invalid ∧ lex2.stream = ⟨rest, []⟩ ∧
    lex2.saved = [34, 92, 117, (d1 : Int), (d2 : Int), (d3 : Int), (d4 : Int), 34] := by
  obtain ⟨h10, h1l, h1m, h1n⟩ := isxdigit_byte_facts d1 hx1
  obtain ⟨h20, h2l, h2m, h2n⟩ := isxdigit_byte_facts d2 hx2
  obtain ⟨h30, h3l, h3m, h3n⟩ := isxdigit_byte_facts d3 hx3
  obtain ⟨h40, h4l, h4m, h4n⟩ := isxdigit_byte_facts d4 hx4
  have h34c : toChar 34 = 34 := by decide
  have h92c : toChar 92 = 92 := by decide
  have h117c : toChar 117 = 117 := by decide
  match fuel with
  | 0 => simp [lex_scan, skipWsLoop, lex_get, stream_get, string_source] at hscan
  | 1 =>
    simp [lex_scan, lex_init, lex_get, lex_get_save, lex_save, lex_eof,
      lex_unget_unsave, stream_get, stream_unget, string_source, sgnChar,
      skipWsLoop, lex_scan_string, scanStrLoop, hexLoop, isdigitC, isupperC, islowerC,
      hx1, hx2, hx3, hx4, h10, h1l, h1m, h1n, h20, h2l, h2m, h2n,
      h30, h3l, h3m, h3n, h40, h4l, h4m, h4n,
      toChar_byte d1 h1l, toChar_byte d2 h2l, toChar_byte d3 h3l, toChar_byte d4 h4l,
      h34c, h92c, h117c] at hscan
  | (f + 2) =>
    simp [lex_scan, lex_init, lex_get, lex_get_save, lex_save, lex_eof,
      lex_unget_unsave, stream_get, stream_unget, string_source, sgnChar,
      skipWsLoop, lex_scan_string, scanStrLoop, hexLoop, isdigitC, isupperC, islowerC,
      decodeString_u,
      hx1, hx2, hx3, hx4, h10, h1l, h1m, h1n, h20, h2l, h2m, h2n,
      h30, h3l, h3m, h3n, h40, h4l, h4m, h4n,
      toChar_byte d1 h1l, toChar_byte d2 h2l, toChar_byte d3 h3l, toChar_byte d4 h4l,
      h34c, h92c, h117c] at hscan
    subst hscan
    exact ⟨rfl, rfl, rfl⟩

/-- Shape rejection of a backslash u escape: when the character after
the u is not a hex digit, the raw scan aborts, the offending character
is pushed back and the token is INVALID. -/
theorem lex_u_bad_hex (c : Nat) (rest : List Nat) (fuel : Nat) (lex2 : LexSt (List Nat))
    (hc1 : 1 ≤ c) (hcl : c < 128) (hx : isxdigitC (c : Int) = false)
    (hscan : lex_scan string_source fuel
      (lex_init (34 :: 92 :: 117 :: c :: rest)) = some lex2) :
    lex2.token = Token.invalid ∧ lex2.stream = ⟨rest, [(c : Int)]⟩ ∧
    lex2.saved = [34, 92, 117] := by
  have hc0 : ¬(c = 0) := by omega
  have hcm : ((c : Int)) ≠ -1 := by omega
  have hcn : ¬((c : Int) < 0) := by omega
  have h34c : toChar 34 = 34 := by decide
  have h92c : toChar 92 = 92 := by decide
  have h117c : toChar 117 = 117 := by decide
  match fuel with
  | 0 => simp [lex_scan, skipWsLoop, lex_get, stream_get, string_source] at hscan
  | (f + 1) =>
    simp [lex_scan, lex_init, lex_get, lex_get_save, lex_save, lex_eof,
      lex_unget_unsave, stream_get, stream_unget, string_source, sgnChar,
      skipWsLoop, lex_scan_string, scanStrLoop, hexLoop, isdigitC, isupperC, islowerC,
      hx, hc0, hcl, hcm, hcn, toChar_byte c hcl, h34c, h92c, h117c] at hscan
    subst hscan
    exact ⟨rfl, rfl, rfl⟩

/-- C4: the lexer accepts the shape of a backslash u escape only when
exactly four hex digits follow (otherwise the raw scan aborts with the
offending character pushed back), and even then the decoding pass always
rejects the token as INVALID, whatever the digits; the decode pass
rejects a backslash u escape wherever it stands in the raw text, so a
string containing one never becomes a STRING token. -/
theorem spec_c4_unicode :
    (∀ (pre post : List Int), (∀ c ∈ pre, c ≠ 34 ∧ c ≠ 92) →
      decodeString (pre ++ 92 :: 117 :: post) = none) ∧
    (∀ (d1 d2 d3 d4 : Nat) (rest : List Nat) (fuel : Nat) (lex2 : LexSt (List Nat)),
      isxdigitC (d1 : Int) = true → isxdigitC (d2 : Int) = true →
      isxdigitC (d3 : Int) = true → isxdigitC (d4 : Int) = true →
      lex_scan string_source fuel
        (lex_init (34 :: 92 :: 117 :: d1 :: d2 :: d3 :: d4 :: 34 :: rest)) = some lex2 →
      lex2.token = Token.invalid ∧ lex2.stream = ⟨rest, []⟩ ∧
      lex2.saved = [34, 92, 117, (d1 : Int), (d2 : Int), (d3 : Int), (d4 : Int), 34]) ∧
    (∀ (c : Nat) (rest : List Nat) (fuel : Nat) (lex2 : LexSt (List Nat)),
      1 ≤ c → c < 128 → isxdigitC (c : Int) = false →
      lex_scan string_source fuel
        (lex_init (34 :: 92 :: 117 :: c :: rest)) = some lex2 →
      lex2.token = Token.invalid ∧ lex2.stream = ⟨rest, [(c : Int)]⟩ ∧
      lex2.saved = [34, 92, 117]) := by
  refine ⟨decodeString_u_anywhere, ?_, ?_⟩
  · intro d1 d2 d3 d4 rest fuel lex2 hx1 hx2 hx3 hx4 hscan
    exact lex_u_four_hex d1 d2 d3 d4 rest fuel lex2 hx1 hx2 hx3 hx4 hscan
  · intro c rest fuel lex2 hc1 hcl hx hscan
    exact lex_u_bad_hex c rest fuel lex2 hc1 hcl hx hscan

/-- Witness for C4: the escape backslash u 0041 inside a string literal:
the whole literal is consumed through the closing quote, and the token
is INVALID. -/
theorem spec_c4_witness :
    (({ stream := { src := [], pending := [] },
        saved := [34, 92, 117, 48, 48, 52, 49, 34],
        token := Token.invalid, line := 1 } : LexSt (List Nat)).token = Token.invalid ∧
     ({ stream := { src := [], pending := [] },
        saved := [34, 92, 117, 48, 48, 52, 49, 34],
        token := Token.invalid, line := 1 } : LexSt (List Nat)).stream = ⟨[], []⟩ ∧
     ({ stream := { src := [], pending := [] },
        saved := [34, 92, 117, 48, 48, 52, 49, 34],
        token := Token.invalid, line := 1 } : LexSt (List Nat)).saved =
       [34, 92, 117, 48, 48, 52, 49, 34]) := by
  exact spec_c4_unicode.2.1 48 48 52 49 [] 99
    { stream := { src := [], pending := [] },
      saved := [34, 92, 117, 48, 48, 52, 49, 34],
      token := Token.invalid, line := 1 }
    (by decide) (by decide) (by decide) (by decide) rfl


/-- Two parse results equal after forgetting diagnostics are either both
failures or carry the same tree with states agreeing outside the
diagnostic destination. -/
theorem sansErr_eq_cases {σ : Type} {X Y : Option (Option (Json × Nat) × PSt σ)}
    (h : sansErr X = sansErr Y) :
    (X = none ∧ Y = none) ∨
    ∃ r st1 st2, X = some (r, st1) ∧ Y = some (r, st2) ∧
      st1.lex = st2.lex ∧ st1.live = st2.live ∧ st1.sb = st2.sb := by
  cases X with
  | none =>
    cases Y with
    | none => exact Or.inl ⟨rfl, rfl⟩
    | some p => simp [sansErr] at h
  | some p =>
    cases Y with
    | none => simp [sansErr] at h
    | some q =>
      obtain ⟨r, st1⟩ := p
      obtain ⟨r2, st2⟩ := q
      simp only [sansErr, Option.map_some', Option.some.injEq, Prod.mk.injEq] at h
      obtain ⟨hr, hlex, hlive, hsb⟩ := h
      subst hr
      exact Or.inr ⟨r, st1, st2, rfl, rfl, hlex, hlive, hsb⟩

/-- The diagnostic destination never steers the parser: at every fuel
level, each of the five routines gives the same outcome apart from the
diagnostics when run from states differing only in the destination. -/
theorem parsers_err_indep {σ : Type} (S : Source σ) : ∀ (fuel : Nat) (lex : LexSt σ)
    (e1 e2 : Option JsonError) (live : Nat) (sb : Option Nat),
    sansErr ((parsers S fuel).value ⟨lex, e1, live, sb⟩) =
      sansErr ((parsers S fuel).value ⟨lex, e2, live, sb⟩) ∧
    sansErr ((parsers S fuel).objectP ⟨lex, e1, live, sb⟩) =
      sansErr ((parsers S fuel).objectP ⟨lex, e2, live, sb⟩) ∧
    (∀ ms, sansErr ((parsers S fuel).oloop ⟨lex, e1, live, sb⟩ ms) =
      sansErr ((parsers S fuel).oloop ⟨lex, e2, live, sb⟩ ms)) ∧
    sansErr ((parsers S fuel).arrayP ⟨lex, e1, live, sb⟩) =
      sansErr ((parsers S fuel).arrayP ⟨lex, e2, live, sb⟩) ∧
    (∀ es, sansErr ((parsers S fuel).aloop ⟨lex, e1, live, sb⟩ es) =
      sansErr ((parsers S fuel).aloop ⟨lex, e2, live, sb⟩ es)) := by
  intro fuel
  induction fuel with
  | zero =>
    intro lex e1 e2 live sb
    exact ⟨rfl, rfl, fun _ => rfl, rfl, fun _ => rfl⟩
  | succ f ih =>
    intro lex e1 e2 live sb
    refine ⟨?_, ?_, ?_, ?_, ?_⟩
    · -- value
      simp only [parsers, parse_step]
      cases htok : lex.token with
      | punct c =>
        simp only [htok]
        by_cases h123 : c = 123
        · simp only [if_pos h123]
          exact (ih lex e1 e2 live sb).2.1
        · simp only [if_neg h123]
          by_cases h91 : c = 91
          · simp only [if_pos h91]
            exact (ih lex e1 e2 live sb).2.2.2.1
          · simp only [if_neg h91]
            simp [sansErr]
      | string s => simp [sansErr, htok]
      | integer n => simp [sansErr, htok]
      | real m e => simp [sansErr, htok]
      | tru => simp [sansErr, htok]
      | fls => simp [sansErr, htok]
      | nul => simp [sansErr, htok]
      | invalid => simp [sansErr, htok]
      | eof => simp [sansErr, htok]
    · -- objectP
      simp only [parsers, parse_step]
      cases hs : lex_scan S f lex with
      | none => simp only [hs]
      | some lexA =>
        simp only [hs]
        by_cases hb : lexA.token = Token.punct 125
        · simp [hb, sansErr]
        · simp only [if_neg hb]
          exact (ih lexA e1 e2 (live + 1) sb).2.2.1 []
    · -- oloop
      intro ms
      simp only [parsers, parse_step]
      cases htok : lex.token with
      | string key =>
        simp only [htok]
        rcases hsd : strdupStep sb with ⟨ok, sb2⟩
        cases ok with
        | false => simp [sansErr]
        | true =>
          cases hs2 : lex_scan S f lex with
          | none => simp only [hs2]
          | some lexB =>
            simp only [hs2]
            by_cases hc : lexB.token = Token.punct 58
            · have hnc : ¬(lexB.token ≠ Token.punct 58) := by simp [hc]
              simp only [if_neg hnc]
              cases hs3 : lex_scan S f lexB with
              | none => simp only [hs3]
              | some lexC =>
                simp only [hs3]
                have hv := (ih lexC e1 e2 live sb2).1
                rcases sansErr_eq_cases hv with ⟨hX, hY⟩ | ⟨r, stA, stB, hX, hY, hl, hlv, hsb⟩
                · simp only [hX, hY]
                · simp only [hX, hY]
                  cases r with
                  | none => simp [sansErr, hl, hlv, hsb]
                  | some vn =>
                    simp only [hl, hlv, hsb]
                    cases hs4 : lex_scan S f stB.lex with
                    | none => simp only [hs4]
                    | some lexD =>
                      simp only [hs4]
                      by_cases hcomma : lexD.token = Token.punct 44
                      · have hnc2 : ¬(lexD.token ≠ Token.punct 44) := by simp [hcomma]
                        simp only [if_neg hnc2]
                        cases hs5 : lex_scan S f lexD with
                        | none => simp only [hs5]
                        | some lexE =>
                          simp only [hs5]
                          exact (ih lexE stA.err stB.err
                            (stB.live - (objSet ms key vn).2) stB.sb).2.2.1 (objSet ms key vn).1
                      · have hcond : lexD.token ≠ Token.punct 44 := hcomma
                        simp only [if_pos hcond]
                        by_cases hbrace : lexD.token = Token.punct 125
                        · simp [hbrace, sansErr]
                        · simp [hbrace, sansErr]
            · have hcond : lexB.token ≠ Token.punct 58 := hc
              simp only [if_pos hcond]
              simp [sansErr]
      | invalid => simp [sansErr, htok]
      | eof => simp [sansErr, htok]
      | punct c => simp [sansErr, htok]
      | integer n => simp [sansErr, htok]
      | real m e => simp [sansErr, htok]
      | tru => simp [sansErr, htok]
      | fls => simp [sansErr, htok]
      | nul => simp [sansErr, htok]
    · -- arrayP
      simp only [parsers, parse_step]
      cases hs : lex_scan S f lex with
      | none => simp only [hs]
      | some lexA =>
        simp only [hs]
        by_cases hb : lexA.token = Token.punct 93
        · simp [hb, sansErr]
        · simp only [if_neg hb]
          exact (ih lexA e1 e2 (live + 1) sb).2.2.2.2 []
    · -- aloop
      intro es
      simp only [parsers, parse_step]
      by_cases heof : lex.token = Token.eof
      · simp [heof, sansErr]
      · simp only [if_neg heof]
        have hv := (ih lex e1 e2 live sb).1
        rcases sansErr_eq_cases hv with ⟨hX, hY⟩ | ⟨r, stA, stB, hX, hY, hl, hlv, hsb⟩
        · simp only [hX, hY]
        · simp only [hX, hY]
          cases r with
          | none => simp [sansErr, hl, hlv, hsb]
          | some vn =>
            simp only [hl, hlv, hsb]
            cases hs2 : lex_scan S f stB.lex with
            | none => simp only [hs2]
            | some lexB =>
              simp only [hs2]
              by_cases hcomma : lexB.token = Token.punct 44
              · have hnc : ¬(lexB.token ≠ Token.punct 44) := by simp [hcomma]
                simp only [if_neg hnc]
                cases hs3 : lex_scan S f lexB with
                | none => simp only [hs3]
                | some lexC =>
                  simp only [hs3]
                  exact (ih lexC stA.err stB.err stB.live stB.sb).2.2.2.2 (es ++ [vn])
              · have hcond : lexB.token ≠ Token.punct 44 := hcomma
                simp only [if_pos hcond]
                by_cases hbr : lexB.token = Token.punct 93
                · simp [hbr, sansErr]
                · simp [hbr, sansErr]

/-- The top level production is likewise independent of the diagnostic
destination. -/
theorem parse_json_err_indep {σ : Type} (S : Source σ) (fuel : Nat) (lex : LexSt σ)
    (e1 e2 : Option JsonError) (live : Nat) (sb : Option Nat) :
    sansErr (parse_json S fuel ⟨lex, e1, live, sb⟩) =
      sansErr (parse_json S fuel ⟨lex, e2, live, sb⟩) := by
  unfold parse_json
  cases hs : lex_scan S fuel lex with
  | none => rfl
  | some lexA =>
    by_cases hb : (lexA.token ≠ Token.punct 91 ∧ lexA.token ≠ Token.punct 123)
    · simp [hs, hb, sansErr]
    · simp only [hs, if_neg hb, parse_value]
      exact (parsers_err_indep S fuel lexA e1 e2 live sb).1

/-- The in memory entry point returns the same tree and live count
whether or not a diagnostic destination is supplied. -/
theorem json_loads_err_indep (fuel : Nat) (input : List Nat) (sb : Option Nat) :
    (json_loads fuel input true sb).map (fun out => (out.1, out.2.2)) =
      (json_loads fuel input false sb).map (fun out => (out.1, out.2.2)) := by
  unfold json_loads pst_init
  rw [if_pos rfl, if_neg (by decide : ¬(false = true))]
  have h := parse_json_err_indep string_source fuel (lex_init input)
    (some { line := 0, text := [] }) none 0 sb
  rcases sansErr_eq_cases h with ⟨hX, hY⟩ | ⟨r, stA, stB, hX, hY, hl, hlv, hsb⟩
  · rw [hX, hY]
  · rw [hX, hY]
    cases r with
    | none => simp [hlv]
    | some vn =>
      simp only [hl, hlv]
      cases hs : lex_scan string_source fuel stB.lex with
      | none => simp only [hs]
      | some lexF =>
        simp only [hs]
        by_cases he : lexF.token = Token.eof
        · have hne : ¬(lexF.token ≠ Token.eof) := by simp [he]
          simp [hne]
        · simp [he]

/-- C8: the error reporter with a null destination is a no op, and a
null destination does not change parsing behavior (same tree and live
count from json_loads either way).  With a destination and lexer state
it sets the line from the lexer and formats the message with the raw
token text between single quote characters when that text is nonempty,
or with the end of file wording otherwise; without lexer state the line
is the sentinel -1 and the message is used verbatim (in every case
within the snprintf truncation bound). -/
theorem spec_c8_error_reporter :
    (∀ (lexv : Option (Int × List Int)) (msg : List Int), error_set none lexv msg = none) ∧
    (∀ (e0 : JsonError) (line : Int) (saved msg : List Int), saved ≠ [] →
      error_set (some e0) (some (line, saved)) msg =
        some { line := line,
               text := snTrunc (snTrunc msg ++ ascii " near " ++ [39] ++ saved ++ [39]) }) ∧
    (∀ (e0 : JsonError) (line : Int) (msg : List Int),
      error_set (some e0) (some (line, [])) msg =
        some { line := line, text := snTrunc (snTrunc msg ++ ascii " near end of file") }) ∧
    (∀ (e0 : JsonError) (msg : List Int),
      error_set (some e0) none msg = some { line := -1, text := snTrunc msg }) ∧
    (∀ (fuel : Nat) (input : List Nat) (sb : Option Nat),
      (json_loads fuel input true sb).map (fun out => (out.1, out.2.2)) =
        (json_loads fuel input false sb).map (fun out => (out.1, out.2.2))) := by
  refine ⟨fun lexv msg => rfl, ?_, ?_, fun e0 msg => rfl, json_loads_err_indep⟩
  · intro e0 line saved msg h
    simp [error_set, h]
  · intro e0 line msg
    simp [error_set]

/-- Witness for C8: the reporter applied to the invalid token message at
line 3 with raw text x formats the message with the raw text context. -/
theorem spec_c8_witness :
    error_set (some { line := 0, text := [] }) (some (3, [120])) (ascii "invalid token") =
      some { line := 3,
             text := snTrunc (snTrunc (ascii "invalid token") ++ ascii " near " ++
               [39] ++ [120] ++ [39]) } := by
  exact spec_c8_error_reporter.2.1 { line := 0, text := [] } 3 [120]
    (ascii "invalid token") (by decide)
